import Mathlib

/-!
# Verification of the state orchestration and persistence layer

Shallow embedding of the client-side store of the "Portais da Consciência"
application (source: `src/types.ts`, which bundles the type definitions and
the zustand store).  Numbers are embedded as `ℚ` (the arithmetic in the
source stays exact on the inputs considered) and the JavaScript `Math.round`
as `⌊q + 1/2⌋`.
-/

namespace Portais

/-- Enum `AgentId` from `src/types.ts`. -/
inductive AgentId
  | coherence
  | self_knowledge
  | health
  | emotional_finance
  | investments
  | guide
  deriving DecidableEq, Repr

/-- `DimensionState` from `src/types.ts`: coherence and dissonance of one
dimension. -/
structure DimensionState where
  coerencia : ℚ
  dissonancia : ℚ
  deriving DecidableEq, Repr

/-- `CoherenceVector` from `src/types.ts`: PAC alignment plus the seven
dimension states. -/
structure CoherenceVector where
  alinhamentoPAC : ℚ
  proposito : DimensionState
  mental : DimensionState
  relacional : DimensionState
  emocional : DimensionState
  somatico : DimensionState
  eticoAcao : DimensionState
  recursos : DimensionState
  deriving DecidableEq, Repr

/-- The keys of the seven dimensions (everything but `alinhamentoPAC`). -/
inductive DimKey
  | proposito
  | mental
  | relacional
  | emocional
  | somatico
  | eticoAcao
  | recursos
  deriving DecidableEq, Repr, Fintype

/-- Field access `vector[dim]` for a dimension key. -/
def dimValue (v : CoherenceVector) : DimKey → DimensionState
  | .proposito => v.proposito
  | .mental => v.mental
  | .relacional => v.relacional
  | .emocional => v.emocional
  | .somatico => v.somatico
  | .eticoAcao => v.eticoAcao
  | .recursos => v.recursos

/-- The list `dimensions` used by `calculateUcs`, in source order. -/
def dimensionKeys : List DimKey :=
  [.proposito, .mental, .relacional, .emocional, .somatico, .eticoAcao, .recursos]

/-- JavaScript `Math.round`: rounds half-up (towards +∞). -/
def jsRound (q : ℚ) : ℤ := ⌊q + 1 / 2⌋

/-- `calculateUcs` from `src/types.ts`: net coherence scaled by the PAC
factor, normalised to 0-100, clamped and rounded. -/
def calculateUcs (v : CoherenceVector) : ℤ :=
  let totalCoherence := dimensionKeys.foldl (fun sum dim => sum + (dimValue v dim).coerencia) 0
  let totalDissonance := dimensionKeys.foldl (fun sum dim => sum + (dimValue v dim).dissonancia) 0
  let avgCoherence := totalCoherence / (dimensionKeys.length : ℚ)
  let avgDissonance := totalDissonance / (dimensionKeys.length : ℚ)
  let netCoherence := avgCoherence - avgDissonance
  let pacFactor := (v.alinhamentoPAC / 100) * (2 / 10) + 9 / 10
  let finalScore := (netCoherence * pacFactor + 100) / 2
  jsRound (max 0 (min 100 finalScore))

/-- Validity invariant of a coherence vector: alignment and all per-dimension
values lie in `[0, 100]`. -/
def validVector (v : CoherenceVector) : Prop :=
  0 ≤ v.alinhamentoPAC ∧ v.alinhamentoPAC ≤ 100 ∧
  ∀ k : DimKey, 0 ≤ (dimValue v k).coerencia ∧ (dimValue v k).coerencia ≤ 100 ∧
    0 ≤ (dimValue v k).dissonancia ∧ (dimValue v k).dissonancia ≤ 100

instance (v : CoherenceVector) : Decidable (validVector v) := by
  unfold validVector
  infer_instance

/-- Spec-side net coherence: mean of the seven coherence values minus the
mean of the seven dissonance values. -/
def specNetCoherence (v : CoherenceVector) : ℚ :=
  (v.proposito.coerencia + v.mental.coerencia + v.relacional.coerencia +
    v.emocional.coerencia + v.somatico.coerencia + v.eticoAcao.coerencia +
    v.recursos.coerencia) / 7 -
  (v.proposito.dissonancia + v.mental.dissonancia + v.relacional.dissonancia +
    v.emocional.dissonancia + v.somatico.dissonancia + v.eticoAcao.dissonancia +
    v.recursos.dissonancia) / 7

/-- Spec-side alignment factor `0.9 + 0.2 * (alignment/100)`. -/
def specFactor (v : CoherenceVector) : ℚ :=
  9 / 10 + (2 / 10) * (v.alinhamentoPAC / 100)

/-- The example vector of the spec: every dimension at coherence 50 /
dissonance 50, alignment 70. -/
def exampleVector50 : CoherenceVector :=
  { alinhamentoPAC := 70
    proposito := ⟨50, 50⟩
    mental := ⟨50, 50⟩
    relacional := ⟨50, 50⟩
    emocional := ⟨50, 50⟩
    somatico := ⟨50, 50⟩
    eticoAcao := ⟨50, 50⟩
    recursos := ⟨50, 50⟩ }

lemma calculateUcs_eq_spec (v : CoherenceVector) :
    calculateUcs v =
      jsRound (max 0 (min 100 ((specNetCoherence v * specFactor v + 100) / 2))) := by
  simp only [calculateUcs, dimensionKeys, dimValue, List.foldl, List.length]
  congr 2
  simp only [specNetCoherence, specFactor]
  push_cast
  ring_nf

lemma jsRound_clamp_mem (x : ℚ) :
    0 ≤ jsRound (max 0 (min 100 x)) ∧ jsRound (max 0 (min 100 x)) ≤ 100 := by
  have h0 : (0 : ℚ) ≤ max 0 (min 100 x) := le_max_left _ _
  have h1 : max 0 (min 100 x) ≤ 100 := max_le (by norm_num) (min_le_left _ _)
  constructor
  · exact Int.le_floor.mpr (by push_cast; linarith)
  · have hlt : jsRound (max 0 (min 100 x)) < 101 := Int.floor_lt.mpr (by push_cast; linarith)
    omega

/-- C3: for every valid coherence vector, `calculateUcs` equals
`round(clamp((netCoherence*factor + 100)/2, 0, 100))` with `netCoherence`
the mean of the seven coherence values minus the mean of the seven
dissonance values and `factor = 0.9 + 0.2*(alignment/100)`; the result is an
integer in `[0, 100]`, and the all-50 vector with alignment 70 scores 50. -/
theorem calculateUcs_formula_bounds_example :
    (∀ v : CoherenceVector, validVector v →
      calculateUcs v =
        jsRound (max 0 (min 100 ((specNetCoherence v * specFactor v + 100) / 2))) ∧
      0 ≤ calculateUcs v ∧ calculateUcs v ≤ 100) ∧
    calculateUcs exampleVector50 = 50 := by
  constructor
  · intro v _
    refine ⟨calculateUcs_eq_spec v, ?_, ?_⟩
    · rw [calculateUcs_eq_spec v]
      exact (jsRound_clamp_mem _).1
    · rw [calculateUcs_eq_spec v]
      exact (jsRound_clamp_mem _).2
  · rw [calculateUcs_eq_spec]
    norm_num [specNetCoherence, specFactor, exampleVector50, jsRound]

/-- Witness for C3: the example vector is valid, and the theorem applies to
it. -/
theorem calculateUcs_formula_bounds_example_witness :
    validVector exampleVector50 ∧
      (calculateUcs exampleVector50 =
        jsRound (max 0 (min 100
          ((specNetCoherence exampleVector50 * specFactor exampleVector50 + 100) / 2))) ∧
      0 ≤ calculateUcs exampleVector50 ∧ calculateUcs exampleVector50 ≤ 100) :=
  ⟨by decide, calculateUcs_formula_bounds_example.1 exampleVector50 (by decide)⟩

/-- The record returned by `getPicRecommendation`. -/
structure Recommendation where
  agentId : AgentId
  dimensionName : String
  deriving DecidableEq, Repr

/-- The static dimension/agent/label table of `getPicRecommendation`, in
source order (which is the canonical dimension ordering). -/
def picDimensions : List (DimKey × AgentId × String) :=
  [(.proposito, .self_knowledge, "Propósito"),
   (.mental, .self_knowledge, "Mental"),
   (.relacional, .coherence, "Relacional"),
   (.emocional, .coherence, "Emocional"),
   (.somatico, .health, "Somático"),
   (.eticoAcao, .coherence, "Ético-Ação"),
   (.recursos, .emotional_finance, "Recursos")]

/-- `getPicRecommendation` from `src/types.ts`: scan the dimension table for
the highest dissonance, starting from the sentinel `-1` and the fallback
recommendation `(coherence, "Geral")`. -/
def getPicRecommendation (v : CoherenceVector) : Recommendation :=
  (picDimensions.foldl
    (fun acc d =>
      if (dimValue v d.1).dissonancia > acc.1 then
        ((dimValue v d.1).dissonancia, ⟨d.2.1, d.2.2⟩)
      else acc)
    (-1, ⟨.coherence, "Geral"⟩)).2

/-- Characterisation of the strict-greater scan: either every element stays
at or below the initial bound and the accumulator is unchanged, or the scan
returns the value and payload of the first element attaining the maximum. -/
lemma foldl_scan_spec {α : Type} (diss : α → ℚ) (entry : α → Recommendation) :
    ∀ (l : List α) (b : ℚ) (r : Recommendation),
      ((∀ d ∈ l, diss d ≤ b) ∧
        l.foldl (fun acc d => if diss d > acc.1 then (diss d, entry d) else acc) (b, r) =
          (b, r)) ∨
      (∃ pre d post, l = pre ++ d :: post ∧ b < diss d ∧
        (∀ e ∈ pre, diss e < diss d) ∧ (∀ e ∈ post, diss e ≤ diss d) ∧
        l.foldl (fun acc d => if diss d > acc.1 then (diss d, entry d) else acc) (b, r) =
          (diss d, entry d)) := by
  intro l
  induction l with
  | nil => intro b r; left; exact ⟨by simp, rfl⟩
  | cons a t ih =>
    intro b r
    by_cases h : diss a > b
    · have hfold :
          (a :: t).foldl (fun acc d => if diss d > acc.1 then (diss d, entry d) else acc) (b, r) =
            t.foldl (fun acc d => if diss d > acc.1 then (diss d, entry d) else acc)
              (diss a, entry a) := by
        simp [h]
      rcases ih (diss a) (entry a) with ⟨hall, heq⟩ | ⟨pre, d, post, ht, hb, hpre, hpost, heq⟩
      · right
        exact ⟨[], a, t, rfl, h, by simp, hall, by rw [hfold, heq]⟩
      · right
        refine ⟨a :: pre, d, post, by rw [ht, List.cons_append], lt_trans h hb, ?_, hpost, by rw [hfold, heq]⟩
        intro e he
        rcases List.mem_cons.mp he with rfl | he
        · exact hb
        · exact hpre e he
    · have hfold :
          (a :: t).foldl (fun acc d => if diss d > acc.1 then (diss d, entry d) else acc) (b, r) =
            t.foldl (fun acc d => if diss d > acc.1 then (diss d, entry d) else acc) (b, r) := by
        simp [h]
      rcases ih b r with ⟨hall, heq⟩ | ⟨pre, d, post, ht, hb, hpre, hpost, heq⟩
      · left
        refine ⟨?_, by rw [hfold, heq]⟩
        intro e he
        rcases List.mem_cons.mp he with rfl | he
        · exact le_of_not_lt h
        · exact hall e he
      · right
        refine ⟨a :: pre, d, post, by rw [ht, List.cons_append], hb, ?_, hpost, by rw [hfold, heq]⟩
        intro e he
        rcases List.mem_cons.mp he with rfl | he
        · exact lt_of_le_of_lt (le_of_not_lt h) hb
        · exact hpre e he

/-- Every dimension key occurs in the table. -/
lemma picDimensions_complete (k : DimKey) : ∃ e ∈ picDimensions, e.1 = k := by
  cases k <;> decide

/-- The initial coherence vector of the store (`initialVector` in
`src/types.ts`). -/
def initialVector : CoherenceVector :=
  { alinhamentoPAC := 70
    proposito := ⟨60, 30⟩
    mental := ⟨75, 40⟩
    relacional := ⟨65, 35⟩
    emocional := ⟨50, 50⟩
    somatico := ⟨70, 20⟩
    eticoAcao := ⟨80, 10⟩
    recursos := ⟨55, 60⟩ }

/-- C4: for every valid coherence vector the recommendation is the table
entry of a dimension of maximal dissonance, and every dimension placed
earlier in the canonical (source) ordering has strictly smaller dissonance,
i.e. ties go to the earliest dimension. -/
theorem getPicRecommendation_picks_max_dissonance :
    ∀ v : CoherenceVector, validVector v →
      ∃ pre kd post, picDimensions = pre ++ kd :: post ∧
        getPicRecommendation v = ⟨kd.2.1, kd.2.2⟩ ∧
        (∀ k : DimKey, (dimValue v k).dissonancia ≤ (dimValue v kd.1).dissonancia) ∧
        (∀ e ∈ pre, (dimValue v e.1).dissonancia < (dimValue v kd.1).dissonancia) := by
  intro v hv
  rcases foldl_scan_spec (fun d => (dimValue v d.1).dissonancia)
      (fun d => ⟨d.2.1, d.2.2⟩) picDimensions (-1) ⟨.coherence, "Geral"⟩ with
    ⟨hall, _⟩ | ⟨pre, d, post, hdecomp, _, hpre, hpost, heq⟩
  · exfalso
    have h1 := hall (.proposito, .self_knowledge, "Propósito") (by decide)
    have h2 := (hv.2.2 .proposito).2.2.1
    simp only at h1
    linarith
  · refine ⟨pre, d, post, hdecomp, ?_, ?_, hpre⟩
    · unfold getPicRecommendation
      rw [heq]
    · intro k
      obtain ⟨e, he, hek⟩ := picDimensions_complete k
      rw [hdecomp] at he
      rw [← hek]
      rcases List.mem_append.mp he with he | he
      · exact le_of_lt (hpre e he)
      · rcases List.mem_cons.mp he with rfl | he
        · exact le_refl _
        · exact hpost e he

/-- Witness for C4: the theorem applied to the initial vector of the store. -/
theorem getPicRecommendation_picks_max_dissonance_witness :
    validVector initialVector ∧
      ∃ pre kd post, picDimensions = pre ++ kd :: post ∧
        getPicRecommendation initialVector = ⟨kd.2.1, kd.2.2⟩ ∧
        (∀ k : DimKey,
          (dimValue initialVector k).dissonancia ≤ (dimValue initialVector kd.1).dissonancia) ∧
        (∀ e ∈ pre,
          (dimValue initialVector e.1).dissonancia < (dimValue initialVector kd.1).dissonancia) :=
  ⟨by decide, getPicRecommendation_picks_max_dissonance initialVector (by decide)⟩

/-- C9: when all seven dissonance values are non-negative the scan always
replaces the initialised fallback `(coherence, "Geral")`, so the result is
one of the seven table entries and never the fallback. -/
theorem getPicRecommendation_not_fallback :
    ∀ v : CoherenceVector, (∀ k : DimKey, 0 ≤ (dimValue v k).dissonancia) →
      getPicRecommendation v ≠ ⟨AgentId.coherence, "Geral"⟩ ∧
      getPicRecommendation v ∈
        picDimensions.map (fun d => (⟨d.2.1, d.2.2⟩ : Recommendation)) := by
  intro v hv
  rcases foldl_scan_spec (fun d => (dimValue v d.1).dissonancia)
      (fun d => ⟨d.2.1, d.2.2⟩) picDimensions (-1) ⟨.coherence, "Geral"⟩ with
    ⟨hall, _⟩ | ⟨pre, d, post, hdecomp, _, _, _, heq⟩
  · exfalso
    have h1 := hall (.proposito, .self_knowledge, "Propósito") (by decide)
    have h2 := hv .proposito
    simp only at h1
    linarith
  · have hres : getPicRecommendation v = ⟨d.2.1, d.2.2⟩ := by
      unfold getPicRecommendation
      rw [heq]
    have hmem : d ∈ picDimensions := by
      rw [hdecomp]
      exact List.mem_append.mpr (Or.inr (List.mem_cons_self _ _))
    constructor
    · rw [hres]
      have : ∀ e ∈ picDimensions,
          (⟨e.2.1, e.2.2⟩ : Recommendation) ≠ ⟨AgentId.coherence, "Geral"⟩ := by decide
      exact this d hmem
    · rw [hres]
      exact List.mem_map.mpr ⟨d, hmem, rfl⟩

/-- Witness for C9: the theorem applied to the initial vector of the store. -/
theorem getPicRecommendation_not_fallback_witness :
    (∀ k : DimKey, 0 ≤ (dimValue initialVector k).dissonancia) ∧
      (getPicRecommendation initialVector ≠ ⟨AgentId.coherence, "Geral"⟩ ∧
        getPicRecommendation initialVector ∈
          picDimensions.map (fun d => (⟨d.2.1, d.2.2⟩ : Recommendation))) :=
  ⟨by decide, getPicRecommendation_not_fallback initialVector (by decide)⟩

/-- The activity-log update performed by `logActivity` in `src/types.ts`:
`unshift` the new entry, then set `length = 100` (truncate) when the log
exceeds 100 entries. -/
def logActivityLog {α : Type} (e : α) (log : List α) : List α :=
  let l := e :: log
  if l.length > 100 then l.take 100 else l

/-- Iterated logging: the activity log after logging the entries of `es` in
order, starting from `log`. -/
def logMany {α : Type} (es : List α) (log : List α) : List α :=
  es.foldl (fun acc e => logActivityLog e acc) log

lemma logActivityLog_eq_take {α : Type} (e : α) (log : List α) :
    logActivityLog e log = (e :: log).take 100 := by
  unfold logActivityLog
  by_cases h : (e :: log).length > 100
  · simp [h]
  · simp only [h, if_false]
    exact (List.take_of_length_le (le_of_not_lt h)).symm

lemma take_append_take {α : Type} (a b : List α) (n : ℕ) :
    (a ++ b.take n).take n = (a ++ b).take n := by
  rw [List.take_append_eq_append_take, List.take_append_eq_append_take, List.take_take]
  congr 1
  rw [min_eq_left (Nat.sub_le n a.length)]

lemma logMany_eq_take {α : Type} :
    ∀ (es log : List α), log.length ≤ 100 →
      logMany es log = (es.reverse ++ log).take 100 := by
  intro es
  induction es with
  | nil =>
    intro log hlen
    simp only [logMany, List.foldl_nil, List.reverse_nil, List.nil_append]
    exact (List.take_of_length_le hlen).symm
  | cons e es ih =>
    intro log hlen
    have hstep : logMany (e :: es) log = logMany es (logActivityLog e log) := rfl
    have hlen2 : (logActivityLog e log).length ≤ 100 := by
      rw [logActivityLog_eq_take]
      simp [List.length_take]
    rw [hstep, ih _ hlen2, logActivityLog_eq_take, take_append_take]
    congr 1
    simp [List.append_assoc]

/-- C5: each `logActivity` prepends the new entry and truncates to the 100
most recent; starting from an empty log, logging a sequence of entries
retains exactly the most recent min(n,100) of them in most-recent-first
order, and more than 100 loggings leave exactly 100 entries. -/
theorem activityLog_newest_first_capped (α : Type) (es : List α) :
    (∀ (e : α) (log : List α), logActivityLog e log = (e :: log).take 100) ∧
    logMany es ([] : List α) = es.reverse.take 100 ∧
    (logMany es ([] : List α)).length ≤ 100 ∧
    (100 < es.length → (logMany es ([] : List α)).length = 100) := by
  have hmain : logMany es ([] : List α) = es.reverse.take 100 := by
    rw [logMany_eq_take es [] (by simp)]
    simp
  refine ⟨fun e log => logActivityLog_eq_take e log, hmain, ?_, ?_⟩
  · rw [hmain]
    simp [List.length_take]
  · intro hlen
    rw [hmain]
    simp only [List.length_take, List.length_reverse]
    omega

/-- Witness for C5: logging 101 entries keeps exactly 100. -/
theorem activityLog_newest_first_capped_witness :
    100 < (List.range 101).length ∧ (logMany (List.range 101) ([] : List ℕ)).length = 100 :=
  ⟨by simp, (activityLog_newest_first_capped ℕ (List.range 101)).2.2.2 (by simp)⟩

/-- Message sender. -/
inductive Sender
  | user
  | agent
  deriving DecidableEq, Repr

/-- Attachment kind of a chat-message file. -/
inductive FileKind
  | image
  | other
  deriving DecidableEq, Repr

/-- `Message` from `src/types.ts` (the optional `file` holds url, name and
kind). -/
structure Message where
  id : String
  sender : Sender
  text : String
  timestamp : ℤ
  file : Option (String × String × FileKind) := none
  deriving DecidableEq, Repr

/-- `ToolId` from `src/types.ts`. -/
inductive ToolId
  | meditation
  | content_analyzer
  | guided_prayer
  | prayer_pills
  | dissonance_analyzer
  | therapeutic_journal
  | quantum_simulator
  | phi_frontier_radar
  | dosh_diagnosis
  | wellness_visualizer
  | belief_resignifier
  | emotional_spending_map
  | risk_calculator
  | archetype_journey
  | verbal_frequency_analysis
  | routine_aligner
  | scheduled_session
  deriving DecidableEq, Repr

/-- The tagged payload of an `ActivityLogEntry`: either a chat transcript or
a tool result; the tool `result` value is `any` in the source and is
embedded as an opaque string. -/
inductive ActivityData
  | chat_session (messages : List Message)
  | tool_usage (toolId : ToolId) (result : String)
  deriving DecidableEq, Repr

/-- `ActivityLogEntry` from `src/types.ts`. -/
structure ActivityLogEntry where
  id : String
  timestamp : ℤ
  agentId : AgentId
  vectorSnapshot : CoherenceVector
  data : ActivityData
  deriving DecidableEq, Repr

/-- The argument of `logActivity`: an `ActivityLogEntry` without `id`,
`timestamp` and `vectorSnapshot`. -/
structure ActivityEntryData where
  agentId : AgentId
  data : ActivityData
  deriving DecidableEq, Repr

/-- `CoherenceQuest` from `src/types.ts`. -/
structure CoherenceQuest where
  id : String
  title : String
  description : String
  targetTool : ToolId
  targetDimension : DimKey
  isCompleted : Bool
  completionTimestamp : Option ℤ := none
  deriving DecidableEq, Repr

/-- Result of the activity orchestrator.

Modelled from the spec: the orchestrator (`orchestrate` imported from
`hooks/usePicOrchestrator.ts`) is not among the sources; per spec §4.3 it is
a pure function `applyActivity(entry, currentVector) -> (newVector,
pointsGained)`, so the store actions below take an arbitrary such function
as a parameter. -/
structure OrchestrateResult where
  newVector : CoherenceVector
  pointsGained : ℤ
  deriving DecidableEq, Repr

/-- Type of the orchestrator function (spec §4.3 contract, see
`OrchestrateResult`). -/
abbrev Orchestrator := ActivityEntryData → CoherenceVector → OrchestrateResult

/-- Chat mode tag on the current session. -/
inductive ChatMode
  | voice
  | text
  deriving DecidableEq, Repr

/-- Origin tag on the current session. -/
inductive Origin
  | voice
  | manual
  deriving DecidableEq, Repr

/-- `Session` from `src/types.ts`.  The `agent` variant carries its fields;
the other full-screen variants enter the verified actions only through not
being `agent`, so their optional payloads (initial prompts, schedules) are
not modelled. -/
inductive SessionBase
  | agent (id : AgentId) (autoStart : Bool) (isReconnection : Bool)
  | meditation
  | content_analyzer
  | guided_prayer
  | prayer_pills
  | dissonance_analyzer
  | therapeutic_journal
  | quantum_simulator
  | phi_frontier_radar
  | dosh_diagnosis
  | wellness_visualizer
  | belief_resignifier
  | emotional_spending_map
  | risk_calculator
  | archetype_journey
  | verbal_frequency_analysis
  | routine_aligner
  | scheduled_session
  | scheduled_session_handler
  | guided_meditation_voice
  | guided_prayer_voice
  | prayer_pills_voice
  | journey_history
  | help_center
  deriving DecidableEq, Repr

/-- `currentSession`: a `Session` extended with the `mode` and `origin`
tags. -/
structure CurrentSession where
  base : SessionBase
  mode : Option ChatMode := none
  origin : Option Origin := none
  deriving DecidableEq, Repr

/-- The `activity` field of a `Schedule`. -/
inductive ScheduleActivity
  | meditation
  | guided_prayer
  | prayer_pills
  deriving DecidableEq, Repr

/-- The `status` field of a `Schedule`. -/
inductive ScheduleStatus
  | scheduled
  | completed
  | missed
  deriving DecidableEq, Repr

/-- The `recurrence` field of a `Schedule`. -/
inductive Recurrence
  | none
  | daily
  | weekly
  | custom
  deriving DecidableEq, Repr

/-- `Schedule` from `src/types.ts`; `time` is a millisecond timestamp. -/
structure Schedule where
  id : String
  activity : ScheduleActivity
  time : ℤ
  status : ScheduleStatus
  recurrence : Recurrence
  recurrenceDays : Option (List ℤ) := none
  deriving DecidableEq, Repr

/-- `GuideState` from `src/types.ts`.  The only part of the untyped
`context` the store consults is `context?.agent?.id`, embedded as an
optional agent id. -/
structure GuideState where
  isActive : Bool
  step : ℤ
  tourId : Option String
  context : Option AgentId := none
  deriving DecidableEq, Repr

/-- `View` from `src/types.ts`. -/
inductive View
  | dashboard
  | agents
  | tools
  | quests
  deriving DecidableEq, Repr

/-- The slice of the zustand `AppState` that the embedded actions read or
write.  Toasts are embedded as their message strings. -/
structure StoreState where
  coherenceVector : CoherenceVector
  ucs : ℤ
  recommendation : Option AgentId
  recommendationName : String
  activeView : View
  currentSession : Option CurrentSession
  chatHistories : AgentId → List Message
  schedules : List Schedule
  guideState : GuideState
  completedTours : List String
  activityLog : List ActivityLogEntry
  isVoiceNavOpen : Bool
  reconnectionAgentId : Option AgentId
  proactiveNavContext : Option String
  coherencePoints : ℤ
  coherenceStreak : ℤ
  lastActivityTimestamp : Option ℤ
  activeQuest : Option CoherenceQuest
  completedQuests : List CoherenceQuest
  toasts : List String

/-- `logActivity` from `src/types.ts`.  `orch` is the orchestrator (a
parameter, see `OrchestrateResult`), `dayOf` maps a millisecond timestamp to
its local calendar day (`toDateString()` equality is embedded as equality
under `dayOf`), `now` is `Date.now()`.  The guard
`lastActivityTimestamp ? … : null` makes a stored timestamp `0` behave like
an absent one (JavaScript falsiness), which the embedding reproduces. -/
def logActivity (orch : Orchestrator) (dayOf : ℤ → ℤ) (now : ℤ)
    (entryData : ActivityEntryData) (s : StoreState) : StoreState :=
  let r := orch entryData s.coherenceVector
  let newEntry : ActivityLogEntry :=
    { id := "activity-" ++ toString now
      timestamp := now
      agentId := entryData.agentId
      vectorSnapshot := r.newVector
      data := entryData.data }
  let newLog := logActivityLog newEntry s.activityLog
  let rec2 := getPicRecommendation r.newVector
  let questState : Option CoherenceQuest × List CoherenceQuest × List String :=
    match s.activeQuest, entryData.data with
    | some q, .tool_usage tid _ =>
      if q.isCompleted = false ∧ q.targetTool = tid then
        (Option.none,
         { q with isCompleted := true, completionTimestamp := some now } :: s.completedQuests,
         s.toasts ++ ["Missão de Coerência Concluída: " ++ q.title ++ "!"])
      else (some q, s.completedQuests, s.toasts)
    | q, _ => (q, s.completedQuests, s.toasts)
  let streak2 : ℤ :=
    match s.lastActivityTimestamp with
    | Option.none => 1
    | some last =>
      if last = 0 then 1
      else if dayOf last ≠ dayOf now then
        if now - last < 172800000 then s.coherenceStreak + 1 else 1
      else s.coherenceStreak
  { s with
      coherenceVector := r.newVector
      ucs := calculateUcs r.newVector
      recommendation := some rec2.agentId
      recommendationName := rec2.dimensionName
      activityLog := newLog
      coherencePoints := s.coherencePoints + r.pointsGained
      activeQuest := questState.1
      completedQuests := questState.2.1
      toasts := questState.2.2
      coherenceStreak := streak2
      lastActivityTimestamp := some now }

/-- The test of `endSession` for a text-mode agent chat (`session.type`
is `agent` and `session.mode` is `text`). -/
def isTextAgentChat (cs : CurrentSession) : Bool :=
  (match cs.base with
   | .agent _ _ _ => true
   | _ => false) && cs.mode == some ChatMode.text

/-- `shouldOpenVoiceNav` from `endSession`: the session was started by
voice and is not a text chat. -/
def shouldOpenVoiceNav (cs : CurrentSession) : Bool :=
  cs.origin == some Origin.voice && !isTextAgentChat cs

/-- `endSession` from `src/types.ts`: the synchronous state transition.  On
the voice-navigator path the asynchronous summarisation later only replaces
`proactiveNavContext` (guarded by `isVoiceNavOpen`) and touches no other
field, so it is outside this synchronous model.  `isManualExit` and
`toolResult` only influence that summarisation text. -/
def endSession (orch : Orchestrator) (dayOf : ℤ → ℤ) (now : ℤ)
    (_isManualExit : Bool) (_toolResult : Option (ToolId × String))
    (s : StoreState) : StoreState :=
  match s.currentSession with
  | Option.none => s
  | some session =>
    if shouldOpenVoiceNav session then
      { s with
          currentSession := Option.none
          isVoiceNavOpen := true
          proactiveNavContext := some "loading" }
    else
      let s1 :=
        match session.base with
        | .agent aid _ _ =>
          let history := s.chatHistories aid
          if 1 < history.length then
            logActivity orch dayOf now ⟨aid, .chat_session history⟩ s
          else s
        | _ => s
      { s1 with
          currentSession := Option.none
          reconnectionAgentId := Option.none
          proactiveNavContext := Option.none }

/-- A concrete store state mirroring the initial state of the store, used by the
closed witnesses. -/
def demoState : StoreState :=
  { coherenceVector := initialVector
    ucs := calculateUcs initialVector
    recommendation := some (getPicRecommendation initialVector).agentId
    recommendationName := (getPicRecommendation initialVector).dimensionName
    activeView := View.dashboard
    currentSession := Option.none
    chatHistories := fun _ => []
    schedules := []
    guideState := ⟨false, 0, Option.none, Option.none⟩
    completedTours := []
    activityLog := []
    isVoiceNavOpen := false
    reconnectionAgentId := Option.none
    proactiveNavContext := Option.none
    coherencePoints := 0
    coherenceStreak := 0
    lastActivityTimestamp := Option.none
    activeQuest := Option.none
    completedQuests := []
    toasts := [] }

/-- A trivial orchestrator instance for the closed witnesses. -/
def demoOrch : Orchestrator := fun _ v => ⟨v, 10⟩

/-- A concrete local-calendar-day map (UTC days) for the closed witnesses. -/
def demoDayOf : ℤ → ℤ := fun t => t / 86400000

/-- A concrete activity for the closed witnesses. -/
def demoEntry : ActivityEntryData :=
  ⟨AgentId.coherence, ActivityData.tool_usage ToolId.meditation "r"⟩

/-- C6: the `vectorSnapshot` on the entry created by `logActivity` is the
head of the updated log, and equals the `coherenceVector` of the store right
after the call, which is the post-activity vector returned by the
orchestrator. -/
theorem logActivity_snapshot_is_post_vector
    (orch : Orchestrator) (dayOf : ℤ → ℤ) (now : ℤ)
    (ed : ActivityEntryData) (s : StoreState) :
    ∃ e : ActivityLogEntry,
      (logActivity orch dayOf now ed s).activityLog.head? = some e ∧
      e.id = "activity-" ++ toString now ∧
      e.vectorSnapshot = (logActivity orch dayOf now ed s).coherenceVector ∧
      (logActivity orch dayOf now ed s).coherenceVector =
        (orch ed s.coherenceVector).newVector := by
  refine ⟨{ id := "activity-" ++ toString now
            timestamp := now
            agentId := ed.agentId
            vectorSnapshot := (orch ed s.coherenceVector).newVector
            data := ed.data }, ?_, rfl, rfl, rfl⟩
  show (logActivityLog _ s.activityLog).head? = some _
  rw [logActivityLog_eq_take]
  rfl

/-- C8: `logActivity` always stamps `lastActivityTimestamp := now`; the
streak becomes 1 on a first-ever activity, is unchanged on the same calendar
day, increments when the calendar day changed and the gap is below two days
(172800000 ms), and resets to 1 when the gap is two days or more. -/
theorem logActivity_streak_update
    (orch : Orchestrator) (dayOf : ℤ → ℤ) (now : ℤ)
    (ed : ActivityEntryData) (s : StoreState) :
    ((logActivity orch dayOf now ed s).lastActivityTimestamp = some now) ∧
    (s.lastActivityTimestamp = Option.none →
      (logActivity orch dayOf now ed s).coherenceStreak = 1) ∧
    (∀ last : ℤ, s.lastActivityTimestamp = some last → last ≠ 0 →
      ((dayOf last ≠ dayOf now → now - last < 172800000 →
          (logActivity orch dayOf now ed s).coherenceStreak = s.coherenceStreak + 1) ∧
       (dayOf last ≠ dayOf now → 172800000 ≤ now - last →
          (logActivity orch dayOf now ed s).coherenceStreak = 1) ∧
       (dayOf last = dayOf now →
          (logActivity orch dayOf now ed s).coherenceStreak = s.coherenceStreak))) := by
  refine ⟨rfl, ?_, ?_⟩
  · intro h
    simp [logActivity, h]
  · intro last hlast h0
    refine ⟨?_, ?_, ?_⟩
    · intro hday hlt
      simp [logActivity, hlast, h0, hday, hlt]
    · intro hday hge
      simp [logActivity, hlast, h0, hday, not_lt.mpr hge]
    · intro hday
      simp [logActivity, hlast, h0, hday]

/-- The demo state with a previous activity stamped at time 1000 and a
running streak of 5, for the C8 witness. -/
def demoStreakState : StoreState :=
  { demoState with lastActivityTimestamp := some 1000, coherenceStreak := 5 }

/-- Witness for C8: with the previous activity on an earlier calendar day
and a gap below two days, the streak increments from 5 to 6. -/
theorem logActivity_streak_update_witness :
    demoStreakState.lastActivityTimestamp = some 1000 ∧
    (1000 : ℤ) ≠ 0 ∧ demoDayOf 1000 ≠ demoDayOf 100000000 ∧
    (100000000 : ℤ) - 1000 < 172800000 ∧
    (logActivity demoOrch demoDayOf 100000000 demoEntry demoStreakState).coherenceStreak =
      demoStreakState.coherenceStreak + 1 :=
  ⟨rfl, by decide, by decide, by decide,
    ((logActivity_streak_update demoOrch demoDayOf 100000000 demoEntry
        demoStreakState).2.2 1000 rfl (by decide)).1 (by decide) (by decide)⟩

/-- A seeded greeting message. -/
def msgGreeting : Message :=
  ⟨"agent-initial-coherence", Sender.agent, "Olá", 1, Option.none⟩

/-- A user reply message. -/
def msgReply : Message :=
  ⟨"user-2", Sender.user, "Oi", 2, Option.none⟩

/-- A store state in a voice-originated voice-mode mentor chat with two
exchanged messages. -/
def voiceChatState : StoreState :=
  { demoState with
      currentSession := some ⟨SessionBase.agent AgentId.coherence true false,
        some ChatMode.voice, some Origin.voice⟩
      chatHistories := fun a => if a = AgentId.coherence then [msgGreeting, msgReply] else [] }

/-- C2 counterexample: ending a voice-originated voice-mode mentor chat with
2 messages routes to the voice navigator and appends no ActivityLogEntry,
so ending a mentor chat with ≥ 2 messages does not always append one. -/
theorem endSession_two_messages_no_entry_counterexample :
    voiceChatState.currentSession =
      some ⟨SessionBase.agent AgentId.coherence true false,
        some ChatMode.voice, some Origin.voice⟩ ∧
    (voiceChatState.chatHistories AgentId.coherence).length = 2 ∧
    voiceChatState.activityLog = [] ∧
    (endSession demoOrch demoDayOf 5 true Option.none voiceChatState).activityLog = [] ∧
    (endSession demoOrch demoDayOf 5 true Option.none voiceChatState).isVoiceNavOpen = true :=
  ⟨rfl, rfl, rfl, rfl, rfl⟩

/-- C2 amended: a mentor chat that exits to the dashboard (origin not
`voice`, or a text-mode chat) appends an ActivityLogEntry capturing the full
transcript exactly when the history holds at least 2 messages, and appends
nothing for a 1-message (seeded greeting) history; a session routed to the
voice navigator (voice origin and not a text-mode chat) never appends an
entry. -/
theorem endSession_transcript_logging
    (orch : Orchestrator) (dayOf : ℤ → ℤ) (now : ℤ) (manual : Bool)
    (tr : Option (ToolId × String)) (s : StoreState) :
    (∀ aid auto recon mode origin,
      s.currentSession = some ⟨SessionBase.agent aid auto recon, mode, origin⟩ →
      origin ≠ some Origin.voice ∨ mode = some ChatMode.text →
      (((s.chatHistories aid).length ≤ 1 →
         (endSession orch dayOf now manual tr s).activityLog = s.activityLog) ∧
       (1 < (s.chatHistories aid).length →
         (endSession orch dayOf now manual tr s).activityLog =
           logActivityLog
             { id := "activity-" ++ toString now
               timestamp := now
               agentId := aid
               vectorSnapshot := (orch ⟨aid, ActivityData.chat_session (s.chatHistories aid)⟩
                 s.coherenceVector).newVector
               data := ActivityData.chat_session (s.chatHistories aid) }
             s.activityLog))) ∧
    (∀ cs, s.currentSession = some cs → cs.origin = some Origin.voice →
      (∀ aid auto recon, cs.base = SessionBase.agent aid auto recon →
        cs.mode ≠ some ChatMode.text) →
      (endSession orch dayOf now manual tr s).activityLog = s.activityLog) := by
  constructor
  · intro aid auto recon mode origin hcs hcond
    have hnav : shouldOpenVoiceNav ⟨SessionBase.agent aid auto recon, mode, origin⟩ = false := by
      rcases hcond with h | h
      · have horig : (origin == some Origin.voice) = false := beq_eq_false_iff_ne.mpr h
        simp [shouldOpenVoiceNav, horig]
      · subst h
        simp [shouldOpenVoiceNav, isTextAgentChat]
    constructor
    · intro hlen
      have hnot : ¬1 < (s.chatHistories aid).length := by omega
      simp [endSession, hcs, hnav, hnot]
    · intro hlen
      simp [endSession, hcs, hnav, hlen, logActivity, logActivityLog]
  · intro cs hcs horigin hmode
    have htext : isTextAgentChat cs = false := by
      unfold isTextAgentChat
      cases hb : cs.base
      case agent aid auto recon =>
        have := beq_eq_false_iff_ne.mpr (hmode aid auto recon hb)
        simp [this]
      all_goals simp
    have hnav : shouldOpenVoiceNav cs = true := by
      simp [shouldOpenVoiceNav, horigin, htext]
    simp [endSession, hcs, hnav]

/-- A store state in a manually opened text-flow mentor chat with two
exchanged messages, for the C2 witness. -/
def manualChatState : StoreState :=
  { demoState with
      currentSession := some ⟨SessionBase.agent AgentId.coherence false false,
        Option.none, some Origin.manual⟩
      chatHistories := fun a => if a = AgentId.coherence then [msgGreeting, msgReply] else [] }

/-- Witness for the amended C2: a manually ended mentor chat with two
messages logs the transcript. -/
theorem endSession_transcript_logging_witness :
    manualChatState.currentSession =
      some ⟨SessionBase.agent AgentId.coherence false false,
        Option.none, some Origin.manual⟩ ∧
    (some Origin.manual ≠ some Origin.voice ∨
      (Option.none : Option ChatMode) = some ChatMode.text) ∧
    1 < (manualChatState.chatHistories AgentId.coherence).length ∧
    (endSession demoOrch demoDayOf 7 true Option.none manualChatState).activityLog =
      logActivityLog
        { id := "activity-" ++ toString (7 : ℤ)
          timestamp := 7
          agentId := AgentId.coherence
          vectorSnapshot := (demoOrch
            ⟨AgentId.coherence,
              ActivityData.chat_session (manualChatState.chatHistories AgentId.coherence)⟩
            manualChatState.coherenceVector).newVector
          data := ActivityData.chat_session (manualChatState.chatHistories AgentId.coherence) }
        manualChatState.activityLog :=
  ⟨rfl, Or.inl (by decide), by decide,
    ((endSession_transcript_logging demoOrch demoDayOf 7 true Option.none manualChatState).1
      AgentId.coherence false false Option.none (some Origin.manual) rfl
      (Or.inl (by decide))).2 (by decide)⟩

/-- The string value of an `AgentId` enum member in the source. -/
def agentIdString : AgentId → String
  | .coherence => "coherence"
  | .self_knowledge => "self_knowledge"
  | .health => "health"
  | .emotional_finance => "emotional_finance"
  | .investments => "investments"
  | .guide => "guide"

/-- `startGuide` from `src/types.ts`: no-op when a tour is already active,
otherwise activate at step 0. -/
def startGuide (tourId : String) (context : Option AgentId) (s : StoreState) : StoreState :=
  if s.guideState.isActive then s
  else { s with guideState := ⟨true, 0, some tourId, context⟩ }

/-- `prevGuideStep` from `src/types.ts`: clamp the step at 0. -/
def prevGuideStep (s : StoreState) : StoreState :=
  { s with guideState := { s.guideState with step := max 0 (s.guideState.step - 1) } }

/-- `nextGuideStep` from `src/types.ts`: unbounded increment. -/
def nextGuideStep (s : StoreState) : StoreState :=
  { s with guideState := { s.guideState with step := s.guideState.step + 1 } }

/-- `endGuide` from `src/types.ts`: reset the guide state, idempotently
record the (context-qualified) tour id, then for the main tour return to the
dashboard and open the voice navigator.  The `live_conversation` and
`tool_` branches of the source assign the unchanged id and are subsumed by
the default case. -/
def endGuide (s : StoreState) : StoreState :=
  let tourId := s.guideState.tourId
  let context := s.guideState.context
  let s1 := { s with guideState := ⟨false, 0, Option.none, Option.none⟩ }
  let s2 :=
    match tourId with
    | Option.none => s1
    | some tid =>
      let uniqueTourId :=
        match tid, context with
        | "mentor", some aid => "mentor_" ++ agentIdString aid
        | _, _ => tid
      if uniqueTourId ∈ s1.completedTours then s1
      else { s1 with completedTours := s1.completedTours ++ [uniqueTourId] }
  if tourId = some "main" then
    { s2 with activeView := View.dashboard, isVoiceNavOpen := true }
  else s2

/-- C10: `startGuide` (when it activates) and `endGuide` set `step` to 0,
`nextGuideStep` increments it, `prevGuideStep` clamps it at 0, and every
guide operation preserves `step ≥ 0`. -/
theorem guideStep_never_negative (tourId : String) (context : Option AgentId)
    (s : StoreState) (h : 0 ≤ s.guideState.step) :
    (s.guideState.isActive = false → (startGuide tourId context s).guideState.step = 0) ∧
    (endGuide s).guideState.step = 0 ∧
    (nextGuideStep s).guideState.step = s.guideState.step + 1 ∧
    (prevGuideStep s).guideState.step = max 0 (s.guideState.step - 1) ∧
    0 ≤ (startGuide tourId context s).guideState.step ∧
    0 ≤ (endGuide s).guideState.step ∧
    0 ≤ (nextGuideStep s).guideState.step ∧
    0 ≤ (prevGuideStep s).guideState.step := by
  have hend : (endGuide s).guideState.step = 0 := by
    unfold endGuide
    cases s.guideState.tourId with
    | none => simp
    | some tid =>
      by_cases hmain : (some tid : Option String) = some "main" <;>
        simp only [hmain, if_true, if_false, reduceIte] <;>
        split <;> simp_all
  refine ⟨?_, hend, rfl, rfl, ?_, ?_, ?_, ?_⟩
  · intro hact
    simp [startGuide, hact]
  · unfold startGuide
    split
    · exact h
    · simp
  · rw [hend]
  · simp only [nextGuideStep]
    omega
  · simp only [prevGuideStep]
    exact le_max_left _ _

/-- Witness for C10: the guide operations on the initial (inactive,
step-0) state. -/
theorem guideStep_never_negative_witness :
    (0 : ℤ) ≤ demoState.guideState.step ∧
    demoState.guideState.isActive = false ∧
    (startGuide "main" Option.none demoState).guideState.step = 0 ∧
    (endGuide demoState).guideState.step = 0 ∧
    (nextGuideStep demoState).guideState.step = demoState.guideState.step + 1 ∧
    0 ≤ (nextGuideStep demoState).guideState.step ∧
    0 ≤ (prevGuideStep demoState).guideState.step :=
  have hthm := guideStep_never_negative "main" Option.none demoState (by decide)
  ⟨by decide, rfl, hthm.1 rfl, hthm.2.1, hthm.2.2.1, hthm.2.2.2.2.2.2.1, hthm.2.2.2.2.2.2.2⟩

/-- The catch-up loop of `handleScheduleCompletion`
(`while (nextTime.getTime() <= Date.now()) … += step`): advance `t` by
`step` while it is not strictly in the future.  The source only runs this
with the positive day/week steps; the inner guard makes the non-occurring
non-positive case explicit (and terminating). -/
def advancePast (now step t : ℤ) : ℤ :=
  if t ≤ now then
    if 0 < step then advancePast now step (t + step) else t
  else t
termination_by (now + 1 - t).toNat
decreasing_by
  simp_wf
  omega

/-- One day in milliseconds (`setDate(getDate()+1)` on a fixed-offset
calendar). -/
def dayMs : ℤ := 86400000

/-- One week in milliseconds. -/
def weekMs : ℤ := 604800000

/-- The catch-up loop dispatched on the recurrence: daily and weekly
advance, every other recurrence breaks immediately. -/
def catchUp (now : ℤ) (rec : Recurrence) (t : ℤ) : ℤ :=
  match rec with
  | .daily => advancePast now dayMs t
  | .weekly => advancePast now weekMs t
  | _ => t

/-- The per-schedule body of `handleScheduleCompletion` from
`src/types.ts`.  `getDay` embeds JavaScript `Date.getDay` (0 = Sunday on
the local calendar); calendar-day arithmetic (`setDate`) is embedded as
millisecond arithmetic on a fixed-offset calendar.
`Math.ceil(length*0.2)` does not occur here; the custom-days branch picks
the next configured weekday after the current one, wrapping to next week. -/
def completeScheduleItem (getDay : ℤ → ℤ) (now : ℤ) (sch : Schedule) : Schedule :=
  if sch.recurrence = Recurrence.none then
    { sch with status := ScheduleStatus.completed }
  else
    let nextTime :=
      match sch.recurrence with
      | .daily => sch.time + dayMs
      | .weekly => sch.time + weekMs
      | .custom =>
        match sch.recurrenceDays with
        | some days =>
          if 0 < days.length then
            let sortedDays := days.mergeSort (fun a b => decide (a ≤ b))
            let currentDay := getDay sch.time
            let daysToAdd :=
              match sortedDays.find? (fun d => decide (currentDay < d)) with
              | some nextDay => nextDay - currentDay
              | Option.none =>
                match sortedDays with
                | [] => 0
                | nextDay :: _ => (7 - currentDay) + nextDay
            sch.time + daysToAdd * dayMs
          else sch.time
        | Option.none => sch.time
      | .none => sch.time
    { sch with time := catchUp now sch.recurrence nextTime }

/-- Update the first schedule matching `id` (the `find`/mutate of the
source); the list is unchanged when no schedule matches. -/
def updateFirstSchedule (f : Schedule → Schedule) (id : String) :
    List Schedule → List Schedule
  | [] => []
  | sch :: rest =>
    if sch.id = id then f sch :: rest
    else sch :: updateFirstSchedule f id rest

/-- `handleScheduleCompletion` from `src/types.ts`. -/
def handleScheduleCompletion (getDay : ℤ → ℤ) (now : ℤ) (id : String)
    (s : StoreState) : StoreState :=
  { s with schedules := updateFirstSchedule (completeScheduleItem getDay now) id s.schedules }

lemma advancePast_spec (now step : ℤ) (hstep : 0 < step) (t : ℤ) :
    ∃ m : ℕ, advancePast now step t = t + m * step ∧ now < t + m * step ∧
      (∀ j : ℕ, now < t + j * step → m ≤ j) := by
  suffices h : ∀ (n : ℕ) (t : ℤ), (now + 1 - t).toNat ≤ n →
      ∃ m : ℕ, advancePast now step t = t + m * step ∧ now < t + m * step ∧
        (∀ j : ℕ, now < t + j * step → m ≤ j) by
    exact h (now + 1 - t).toNat t le_rfl
  intro n
  induction n with
  | zero =>
    intro t hn
    have hfut : now < t := by omega
    refine ⟨0, ?_, by omega, fun j _ => Nat.zero_le j⟩
    rw [advancePast]
    simp [not_le.mpr hfut]
  | succ n ih =>
    intro t hn
    by_cases hle : t ≤ now
    · obtain ⟨m, hm, hfut, hmin⟩ := ih (t + step) (by omega)
      refine ⟨m + 1, ?_, by push_cast; linarith [hm ▸ hfut], ?_⟩
      · rw [advancePast]
        simp only [hle, if_true, hstep]
        rw [hm]
        push_cast
        ring
      · intro j hj
        match j with
        | 0 =>
          exfalso
          simp only [Nat.cast_zero, zero_mul, add_zero] at hj
          omega
        | j + 1 =>
          have : now < t + step + j * step := by push_cast at hj ⊢; linarith
          have := hmin j this
          omega
    · refine ⟨0, ?_, by omega, fun j _ => Nat.zero_le j⟩
      rw [advancePast]
      simp [hle]

/-- C7: completing a recurring daily schedule whose time is in the past
moves its time to `time + k` days for the least `k ≥ 1` making it strictly
future, hence to the earliest strictly future instant a whole number of
days after the original, at the same time-of-day (same remainder modulo one
day); on the store, the first schedule matching the id is replaced by this
completion. -/
theorem handleScheduleCompletion_daily_past (getDay : ℤ → ℤ) (now : ℤ)
    (sch : Schedule) (hrec : sch.recurrence = Recurrence.daily)
    (hpast : sch.time < now) :
    (handleScheduleCompletion getDay now sch.id
        { demoState with schedules := [sch] }).schedules =
      [completeScheduleItem getDay now sch] ∧
    ∃ k : ℕ, 1 ≤ k ∧
      (completeScheduleItem getDay now sch).time = sch.time + k * dayMs ∧
      now < (completeScheduleItem getDay now sch).time ∧
      (∀ j : ℕ, 1 ≤ j → now < sch.time + j * dayMs → k ≤ j) ∧
      (completeScheduleItem getDay now sch).time % dayMs = sch.time % dayMs := by
  have htime : (completeScheduleItem getDay now sch).time =
      advancePast now dayMs (sch.time + dayMs) := by
    unfold completeScheduleItem
    rw [hrec]
    simp [catchUp]
  constructor
  · simp [handleScheduleCompletion, updateFirstSchedule]
  · obtain ⟨m, hm, hfut, hmin⟩ :=
      advancePast_spec now dayMs (by unfold dayMs; omega) (sch.time + dayMs)
    refine ⟨m + 1, by omega, ?_, ?_, ?_, ?_⟩
    · rw [htime, hm]
      push_cast
      ring
    · rw [htime, hm]
      linarith
    · intro j hj hjfut
      match j, hj with
      | j + 1, _ =>
        have : now < sch.time + dayMs + j * dayMs := by push_cast at hjfut ⊢; linarith
        have := hmin j this
        omega
    · rw [htime, hm]
      have : sch.time + dayMs + m * dayMs = sch.time + (1 + m) * dayMs := by
        ring
      rw [this, Int.add_mul_emod_self]

/-- A concrete daily schedule in the past, for the C7 witness. -/
def demoSchedule : Schedule :=
  ⟨"schedule-1", ScheduleActivity.meditation, 1000, ScheduleStatus.scheduled,
    Recurrence.daily, Option.none⟩

/-- Witness for C7: the theorem applied to a concrete past daily
schedule. -/
theorem handleScheduleCompletion_daily_past_witness :
    demoSchedule.recurrence = Recurrence.daily ∧ demoSchedule.time < 100000000 ∧
    ((handleScheduleCompletion demoDayOf 100000000 demoSchedule.id
        { demoState with schedules := [demoSchedule] }).schedules =
      [completeScheduleItem demoDayOf 100000000 demoSchedule] ∧
    ∃ k : ℕ, 1 ≤ k ∧
      (completeScheduleItem demoDayOf 100000000 demoSchedule).time =
        demoSchedule.time + k * dayMs ∧
      (100000000 : ℤ) < (completeScheduleItem demoDayOf 100000000 demoSchedule).time ∧
      (∀ j : ℕ, 1 ≤ j → (100000000 : ℤ) < demoSchedule.time + j * dayMs → k ≤ j) ∧
      (completeScheduleItem demoDayOf 100000000 demoSchedule).time % dayMs =
        demoSchedule.time % dayMs) :=
  ⟨rfl, by decide,
    handleScheduleCompletion_daily_past demoDayOf 100000000 demoSchedule rfl (by decide)⟩

/-- The persisted blob as far as the quota-recovery logic of
`safeLocalStorage.setItem` inspects it: `state.activityLog`,
`state.toolStates.therapeuticJournal.history` and
`state.toolStates.verbalFrequencyAnalysis.history` (entry types are opaque
parameters; the other fields of the JSON document are read and written back
unchanged). -/
structure StoredBlob (α β γ : Type) where
  activityLog : List α
  journalHistory : List β
  verbalHistory : List γ
  deriving DecidableEq, Repr

/-- `pruneArray` from `safeLocalStorage.setItem`: for a list longer than
10 entries, remove the oldest 20% — `Math.ceil(length*0.2)` entries from
the end (oldest last, because the lists are built with `unshift`) — and
report whether anything was removed.  On list lengths the float expression
`Math.ceil(length*0.2)` equals `⌈length/5⌉ = (length+4)/5` (their first
divergence would lie far beyond any representable array). -/
def pruneArray {α : Type} (l : List α) : List α × Bool :=
  if 10 < l.length then
    (l.take (l.length - (l.length + 4) / 5), true)
  else (l, false)

/-- The whole-blob pruning of `safeLocalStorage.setItem`: `pruneArray` on
the activity log and on the two tool history lists, together with the
`stateModified` flag of the source. -/
def pruneState {α β γ : Type} (b : StoredBlob α β γ) : StoredBlob α β γ × Bool :=
  (⟨(pruneArray b.activityLog).1, (pruneArray b.journalHistory).1,
    (pruneArray b.verbalHistory).1⟩,
   (pruneArray b.activityLog).2 || (pruneArray b.journalHistory).2 ||
     (pruneArray b.verbalHistory).2)

/-- `safeLocalStorage.setItem` from `src/types.ts`, over an abstract quota
model: `writeOk stored v` says whether writing `v` succeeds while the
storage holds `stored` (a quota-exceeded error is a `false`).  Returns the
storage content after the call.  On a failed write: if nothing is stored or
pruning modifies nothing, the error is swallowed and the storage is
unchanged; otherwise the pruned blob is written and, when that write
succeeds, the original `value` is retried — a failure of either inner write
is swallowed by the cleanup `catch`. -/
def setItem {α β γ : Type}
    (writeOk : Option (StoredBlob α β γ) → StoredBlob α β γ → Bool)
    (stored : Option (StoredBlob α β γ)) (value : StoredBlob α β γ) :
    Option (StoredBlob α β γ) :=
  if writeOk stored value then some value
  else
    match stored with
    | Option.none => stored
    | some cur =>
      if (pruneState cur).2 then
        if writeOk stored (pruneState cur).1 then
          if writeOk (some (pruneState cur).1) value then some value
          else some (pruneState cur).1
        else stored
      else stored

/-- A stored blob whose activity log holds 15 entries. -/
def qblob15 : StoredBlob ℕ ℕ ℕ := ⟨List.range 15, [], []⟩

/-- The new value being persisted: its activity log holds 16 entries (a new
activity prepended to the 15 stored ones). -/
def qvalue16 : StoredBlob ℕ ℕ ℕ := ⟨List.range 16, [], []⟩

/-- A quota model under which only the very first write of `qvalue16` over
`qblob15` fails. -/
def qwriteOk : Option (StoredBlob ℕ ℕ ℕ) → StoredBlob ℕ ℕ ℕ → Bool :=
  fun stored v => !decide (stored = some qblob15 ∧ v = qvalue16)

/-- C1 counterexample: a quota-exceeded write with a 15-entry stored
activity log whose recovery fully succeeds ends with the retried original
value stored — its activity log holds 16 entries, not at most 12; the
pruned 12-entry blob is only the intermediate write. -/
theorem setItem_eventual_write_not_pruned_counterexample :
    qwriteOk (some qblob15) qvalue16 = false ∧
    qblob15.activityLog.length = 15 ∧
    setItem qwriteOk (some qblob15) qvalue16 = some qvalue16 ∧
    ¬(qvalue16.activityLog.length ≤ 12) := by
  refine ⟨by decide, by decide, ?_, by decide⟩
  decide

/-- C1 amended: on a quota-exceeded write with a 15-entry stored activity
log, recovery prunes the activity log of the stored blob to exactly 12 entries
(dropping the oldest ceil(15*0.2) = 3 from the end) and writes it; the
original write is then retried unchanged, each inner write being
best-effort: the final storage is the original value if the retry succeeds,
the pruned blob if only the pruned write succeeds, and the previous content
otherwise. -/
theorem setItem_quota_recovery {α β γ : Type}
    (writeOk : Option (StoredBlob α β γ) → StoredBlob α β γ → Bool)
    (cur : StoredBlob α β γ) (value : StoredBlob α β γ)
    (hfail : writeOk (some cur) value = false)
    (hlen : cur.activityLog.length = 15) :
    (pruneState cur).1.activityLog =
      cur.activityLog.take 12 ∧
    (pruneState cur).1.activityLog.length = 12 ∧
    setItem writeOk (some cur) value =
      (if writeOk (some cur) (pruneState cur).1 then
        (if writeOk (some (pruneState cur).1) value then some value
         else some (pruneState cur).1)
       else some cur) := by
  have hprune : pruneArray cur.activityLog =
      (cur.activityLog.take 12, true) := by
    unfold pruneArray
    rw [hlen]
    norm_num
  have hmod : (pruneState cur).2 = true := by
    simp [pruneState, hprune]
  refine ⟨by simp [pruneState, hprune], ?_, ?_⟩
  · simp [pruneState, hprune, List.length_take, hlen]
  · simp [setItem, hfail, hmod]

/-- Witness for the amended C1: the concrete 15-entry scenario, where both
recovery writes succeed and the retried original value (16 entries) ends up
stored. -/
theorem setItem_quota_recovery_witness :
    qwriteOk (some qblob15) qvalue16 = false ∧
    qblob15.activityLog.length = 15 ∧
    ((pruneState qblob15).1.activityLog = qblob15.activityLog.take 12 ∧
     (pruneState qblob15).1.activityLog.length = 12 ∧
     setItem qwriteOk (some qblob15) qvalue16 =
      (if qwriteOk (some qblob15) (pruneState qblob15).1 then
        (if qwriteOk (some (pruneState qblob15).1) qvalue16 then some qvalue16
         else some (pruneState qblob15).1)
       else some qblob15)) :=
  ⟨by decide, by decide, setItem_quota_recovery qwriteOk qblob15 qvalue16 (by decide) (by decide)⟩

end Portais
